import Mathlib

/-!
# globe.js : dot-matrix globe with animated arcs

A shallow embedding of `src/globe.js`.

* Numbers.  JavaScript numbers are modelled as exact rationals (`ℚ`) in the
  executable part (image sampling, arc lifecycle, frame scheduling) and as
  reals (`ℝ`) where the code calls `Math.asin`, `Math.atan2`, `Math.sin`,
  `Math.cos` (arc endpoint geometry).  Rounding of doubles is not modelled.
* `undefined`.  An array read outside the array yields `undefined`; it is
  modelled by `none`.  Reading a property of `undefined` throws a `TypeError`,
  modelled by `Except.error`.
* `Math.random()` and `performance.now()` are inputs of the functions that
  call them.
* The scene graph, shaders and three.js geometry are left out; of
  `setDrawRange(start, count)` only the stored pair is kept.
-/

namespace Globe

/-! ## Constants (globe.js lines 7-16) -/

/-- The radius of the earth. -/
def GLOBE_RADIUS : Nat := 600
/-- The width of the image. -/
def GLOBE_WIDTH : Nat := 3467
/-- The height of the image. -/
def GLOBE_HEIGHT : Nat := 1890
/-- The number of dots on the earth. -/
def DOT_COUNT : Nat := 30000
/-- The max number of arcs. -/
def MAX_ARCS : Nat := 5
/-- How long the arcs take (in milliseconds). -/
def ARC_DURATION : Nat := 4000
/-- The probability, on each frame render, for an arc to appear (0.1). -/
def ARC_PROBABILITY : ℚ := 1 / 10
/-- Number of vertices an arc is made of. -/
def ARC_VERTICES : Nat := 3000

/-! ## Image sampling (globe.js lines 67-118) -/

/-- A `{u, v}` object as returned by `pointToUV`. -/
structure UV where
  u : ℚ
  v : ℚ
deriving DecidableEq, Repr

/-- The `data` field of an `ImageData`: the RGBA samples, row after row. -/
abbrev ImageData := List Nat

/-- The indices of the four channels of pixel `(x, y)`:
`red = y * (GLOBE_WIDTH * 4) + x * 4`, then `red + 1`, `red + 2`, `red + 3`. -/
def getPixelInd (x y : Int) : List Int :=
  let red := y * ((GLOBE_WIDTH : Int) * 4) + x * 4
  [red, red + 1, red + 2, red + 3]

/-- The read `arr[i]` of a typed array: `undefined` (`none`) outside the array. -/
def readSample (arr : ImageData) (i : Int) : Option Nat :=
  if 0 ≤ i then arr[i.toNat]? else none

/-- The four samples at the four indices `ind[0] .. ind[3]`; `ind[k]` itself is
`undefined` when `ind` is shorter, and so is the sample read with it. -/
def getColorsFromInd (ind : List Int) (data : ImageData) : List (Option Nat) :=
  [ (ind[0]?).bind (readSample data),
    (ind[1]?).bind (readSample data),
    (ind[2]?).bind (readSample data),
    (ind[3]?).bind (readSample data) ]

/-- The pixel column computed by `sampleImage`: `Math.floor(GLOBE_WIDTH * uv.u)`. -/
def sampleX (uv : UV) : Int := ⌊(GLOBE_WIDTH : ℚ) * uv.u⌋

/-- The pixel row computed by `sampleImage`: `Math.floor(GLOBE_HEIGHT * uv.v)`. -/
def sampleY (uv : UV) : Int := ⌊(GLOBE_HEIGHT : ℚ) * uv.v⌋

/-- The indices `sampleImage` hands to `getColorsFromInd`. -/
def sampleInd (uv : UV) : List Int := getPixelInd (sampleX uv) (sampleY uv)

/-- The colors at a uv value. -/
def sampleImage (uv : UV) (data : ImageData) : List (Option Nat) :=
  let x := sampleX uv
  let y := sampleY uv
  let ind := getPixelInd x y
  getColorsFromInd ind data

/-- Whether `r === 0 && g === 0 && b === 0`; a channel that is `undefined` is
not `=== 0`. -/
def pixelIsBlank (colors : List (Option Nat)) : Bool :=
  let r := (colors[0]?).join
  let g := (colors[1]?).join
  let b := (colors[2]?).join
  if r == some 0 && g == some 0 && b == some 0 then true else false

end Globe

namespace Globe

/-! ## Dot placement (globe.js lines 126-142, 244-324) -/

/-- A Dot.  Of the object built by `new Dot(phi, theta)` the model keeps the
loop index `i` that fixes `phi` and `theta`, and the value
`pointToUV(this.boundingSphere)`; the three.js geometry that produces the
bounding sphere is an input of `placeDots`. -/
structure Dot where
  i : Nat
  uv : UV
deriving DecidableEq, Repr

/-- One pass of the body of the loop of `placeDots` for loop index `i`:
build the Dot, sample the map under it, and `addToScene` (push on `dots`)
when the pixel is not blank. -/
def placeDotsBody (mapData : ImageData) (newDot : Nat → Dot) (i : Nat)
    (dots : List Dot) : List Dot :=
  let d := newDot i
  let colors := sampleImage d.uv mapData
  if !pixelIsBlank colors then dots ++ [d] else dots

/-- The loop `for (let i = ..; i >= 0; i--)` of `placeDots`, entered with
loop index `i`: the body runs for `i`, `i - 1`, ..., `0`. -/
def placeDotsLoop (mapData : ImageData) (newDot : Nat → Dot) :
    Nat → List Dot → List Dot
  | 0, dots => placeDotsBody mapData newDot 0 dots
  | i + 1, dots =>
      placeDotsLoop mapData newDot i (placeDotsBody mapData newDot (i + 1) dots)

/-- Places the dots on the earth: the loop starts at `i = DOT_COUNT`. -/
def placeDots (mapData : ImageData) (newDot : Nat → Dot) (dots : List Dot) :
    List Dot :=
  placeDotsLoop mapData newDot DOT_COUNT dots

end Globe

namespace Globe

/-! ## Arcs (globe.js lines 326-555) -/

/-- An Arc, reduced to the fields its animation reads and writes:
`startTime` (a `performance.now()` reading), `progress`, the two flags, and
the pair last stored by `geometry.setDrawRange(start, count)`.  `startInd`
and `endInd` are the two dot indices drawn by the constructor. -/
structure Arc where
  startInd : Int
  endInd : Int
  startTime : ℚ
  progress : ℚ
  hasReachedEnd : Bool
  isDone : Bool
  drawStart : ℚ
  drawCount : ℚ
deriving DecidableEq, Repr

/-- The exception of the Arc constructor: reading `.vector` of `undefined`. -/
inductive ArcError where
  | typeError
deriving DecidableEq, Repr

/-- The index `Math.floor(Math.random() * (dots.length + 1))` for the random
draw `r`. -/
def randomDotIndex (dots : List Dot) (r : ℚ) : Int :=
  ⌊r * ((dots.length : ℚ) + 1)⌋

/-- The read `dots[i]`: `undefined` (`none`) outside the array. -/
def readDot (dots : List Dot) (i : Int) : Option Dot :=
  if 0 ≤ i then dots[i.toNat]? else none

/-- The fields the Arc constructor initialises at lines 386-393, for the
clock reading `t0` of `performance.now()`: `startTime = t0`, draw range
`(0, 1)`, `progress = 0`, and both flags `false`. -/
def Arc.fresh (startInd endInd : Int) (t0 : ℚ) : Arc :=
  { startInd := startInd, endInd := endInd, startTime := t0, progress := 0,
    hasReachedEnd := false, isDone := false, drawStart := 0, drawCount := 1 }

/-- The Arc constructor (`new Arc(time)`), for the two random draws `r1`, `r2`
and the reading `now` of `performance.now()`.  `dots[startInd].vector` and
`dots[endInd].vector` throw when the dot read is `undefined`; otherwise the
fields are initialised as in `Arc.fresh`. -/
def Arc.construct (dots : List Dot) (r1 r2 now : ℚ) : Except ArcError Arc :=
  let startInd := randomDotIndex dots r1
  let endInd := randomDotIndex dots r2
  match readDot dots startInd with
  | none => Except.error ArcError.typeError
  | some _ =>
    match readDot dots endInd with
    | none => Except.error ArcError.typeError
    | some _ => Except.ok (Arc.fresh startInd endInd now)

/-- The method `drawAnimatedLine`, lines 500-528.  `now1` is the reading of
`performance.now()` at line 500; `now2` is the reading at line 515, taken only
when the arc reaches its end in this call.  The local `progress` is reset to
`0` at line 516, the field `this.progress` and `drawRangeCount` are not. -/
def Arc.drawAnimatedLine (a : Arc) (now1 now2 : ℚ) : Arc :=
  let timeElapsed := now1 - a.startTime
  let progress := timeElapsed / ((ARC_DURATION : ℚ) / 2)
  let a1 := { a with progress := progress }
  let drawRangeCount := progress * (ARC_VERTICES : ℚ)
  let st : Arc × ℚ :=
    if !a1.hasReachedEnd then
      if progress < 999 / 1000 then
        ({ a1 with drawStart := 0, drawCount := drawRangeCount }, progress)
      else
        ({ a1 with hasReachedEnd := true, startTime := now2 }, 0)
    else (a1, progress)
  let a2 := st.1
  let progress2 := st.2
  if a2.hasReachedEnd then
    if progress2 < 999 / 1000 then
      { a2 with drawStart := -drawRangeCount, drawCount := (ARC_VERTICES : ℚ) }
    else
      { a2 with isDone := true }
  else a2

/-- Successive calls of `drawAnimatedLine`, one per pair of clock readings. -/
def Arc.run (a : Arc) : List (ℚ × ℚ) → Arc
  | [] => a
  | r :: rs => (a.drawAnimatedLine r.1 r.2).run rs

/-- The clock readings `rs`, taken after the reading `t`, never go back. -/
def clockOK (t : ℚ) : List (ℚ × ℚ) → Prop
  | [] => True
  | r :: rs => t ≤ r.1 ∧ r.1 ≤ r.2 ∧ clockOK r.2 rs

/-- The phase invariant of an arc created at `t0`: while revealing, the phase
timer is still `t0`; once receding, the phase timer was reset no earlier than
`0.999 * ARC_DURATION / 2` after `t0`. -/
def PhaseInv (t0 : ℚ) (a : Arc) : Prop :=
  (a.hasReachedEnd = false → a.startTime = t0) ∧
  (a.hasReachedEnd = true → t0 + 999 / 1000 * ((ARC_DURATION : ℚ) / 2) ≤ a.startTime)

/-! ## Frame scheduling (globe.js lines 188-218, 597-604) -/

/-- What `updateArcs` leaves behind: the array `arcs`, the arcs on which
`drawAnimatedLine` was called (as they were before the call, in call order),
and the arcs handed to `removeFromScene` (in call order). -/
structure UpdateResult where
  arcs : List Arc
  drawn : List Arc
  removed : List Arc
deriving DecidableEq, Repr

/-- The loop of `updateArcs`, at loop index `i`.  `clk k` are the clock
readings seen by the `k`-th call of `drawAnimatedLine` of this pass.  The arc
`arcs[i]` is advanced in place; when it is done it is removed with
`splice(i, 1)` and the index stays (`i--` followed by `i++`), otherwise the
index moves on. -/
def updateArcsLoop (clk : Nat → ℚ × ℚ) (arcs : List Arc) (i k : Nat)
    (drawn removed : List Arc) : UpdateResult :=
  if h : i < arcs.length then
    let currentArc := arcs[i]
    let advanced := currentArc.drawAnimatedLine (clk k).1 (clk k).2
    let arcs1 := arcs.set i advanced
    if advanced.isDone then
      updateArcsLoop clk (arcs1.eraseIdx i) i (k + 1) (drawn ++ [currentArc])
        (removed ++ [advanced])
    else
      updateArcsLoop clk arcs1 (i + 1) (k + 1) (drawn ++ [currentArc]) removed
  else
    { arcs := arcs, drawn := drawn, removed := removed }
termination_by arcs.length - i
decreasing_by
  · simp_wf
    rw [List.length_eraseIdx, List.length_set, if_pos h]
    omega
  · simp_wf
    omega

/-- The function `updateArcs`. -/
def updateArcs (clk : Nat → ℚ × ℚ) (arcs : List Arc) : UpdateResult :=
  updateArcsLoop clk arcs 0 0 [] []

/-- The function `generateArc` for the dice roll `diceRoll`; `r1`, `r2`, `now`
are the inputs of the Arc constructor.  `addToScene` pushes the new arc on
`arcs`; an exception of the constructor leaves `arcs` as it was. -/
def generateArc (dots : List Dot) (arcs : List Arc) (diceRoll r1 r2 now : ℚ) :
    Except ArcError (List Arc) :=
  if diceRoll ≤ ARC_PROBABILITY then
    if arcs.length < MAX_ARCS then
      match Arc.construct dots r1 r2 now with
      | Except.ok newArc => Except.ok (arcs ++ [newArc])
      | Except.error e => Except.error e
    else Except.ok arcs
  else Except.ok arcs

/-- The random draws and clock readings one frame consumes. -/
structure FrameInput where
  diceRoll : ℚ
  r1 : ℚ
  r2 : ℚ
  now : ℚ
  clk : Nat → ℚ × ℚ

/-- One call of `animate`: `generateArc`, then `updateArcs`.  An exception
thrown by `generateArc` ends the frame before `updateArcs` runs. -/
def frame (dots : List Dot) (arcs : List Arc) (f : FrameInput) : List Arc :=
  match generateArc dots arcs f.diceRoll f.r1 f.r2 f.now with
  | Except.ok arcs1 => (updateArcs f.clk arcs1).arcs
  | Except.error _ => arcs

/-- The array `arcs` after a sequence of frames. -/
def runFrames (dots : List Dot) (arcs : List Arc) : List FrameInput → List Arc
  | [] => arcs
  | f :: fs => runFrames dots (frame dots arcs f) fs

/-- All the arcs of `updateArcs`'s input, each advanced once, the `j`-th one
with the `(k + j)`-th pair of clock readings. -/
def advanceAll (clk : Nat → ℚ × ℚ) : Nat → List Arc → List Arc
  | _, [] => []
  | k, a :: as => a.drawAnimatedLine (clk k).1 (clk k).2 :: advanceAll clk (k + 1) as

end Globe

namespace Globe

/-! ## Arc endpoint geometry over the reals (globe.js lines 49-59, 223-242, 331-349) -/

/-- A `THREE.Vector3` with real coordinates. -/
structure Vector3 where
  x : ℝ
  y : ℝ
  z : ℝ

/-- A `{lat, long}` object as returned by `vector3toLonLat`. -/
structure LatLong where
  lat : ℝ
  long : ℝ

/-- The function `Math.atan2(y, x)` on the reals: the angle in `(-π, π]` of
the point `(x, y)`, and `0` at the origin. -/
noncomputable def atan2 (y x : ℝ) : ℝ := Complex.arg ⟨x, y⟩

/-- The function `vector3toLonLat`; `Math.asin` is `Real.arcsin`, which agrees
with it on `[-1, 1]`. -/
noncomputable def vector3toLonLat (vector : Vector3) : LatLong :=
  { lat := |Real.arcsin (vector.z / (GLOBE_RADIUS : ℝ))|
    long := |atan2 vector.y vector.z| }

/-- The function `toXYZ`. -/
noncomputable def toXYZ (lat lon radius : ℝ) : Vector3 :=
  { x := radius * Real.cos lat * Real.cos lon
    y := radius * Real.cos lat * Real.sin lon
    z := radius * Real.sin lat }

/-- The arc endpoint the Arc constructor builds from the position of a chosen
Dot: `toXYZ(lat, long, GLOBE_RADIUS)` with `{lat, long}` the result of
`vector3toLonLat` (lines 331-332 and 346-349). -/
noncomputable def arcEndpoint (position : Vector3) : Vector3 :=
  let latLong := vector3toLonLat position
  toXYZ latLong.lat latLong.long (GLOBE_RADIUS : ℝ)

/-- The method `Vector3.normalize` of three.js: division by the length, or by
`1` when the length is `0`. -/
noncomputable def Vector3.normalize (p : Vector3) : Vector3 :=
  let len := Real.sqrt (p.x * p.x + p.y * p.y + p.z * p.z)
  let d := if len = 0 then 1 else len
  { x := p.x / d, y := p.y / d, z := p.z / d }

/-- The function `pointToUV` on the reals, as the pair `(u, v)`. -/
noncomputable def pointToUV (point : Vector3) : ℝ × ℝ :=
  let normal := point.normalize
  let u := 1 / 2 + atan2 normal.x normal.z / (2 * Real.pi)
  let v := 1 / 2 - Real.arcsin normal.y / Real.pi
  (u, v)

end Globe

namespace Globe

/-! ## Test images and test dot sequences -/

/-- A fully white `GLOBE_WIDTH` x `GLOBE_HEIGHT` image: every sample is `255`. -/
def whiteImage : ImageData := List.replicate (GLOBE_WIDTH * GLOBE_HEIGHT * 4) 255

/-- A fully black `GLOBE_WIDTH` x `GLOBE_HEIGHT` image: every sample is `0`. -/
def blackImage : ImageData := List.replicate (GLOBE_WIDTH * GLOBE_HEIGHT * 4) 0

/-- Dots that all project to the middle of the image, `u = v = 1/2`. -/
def centreDot (i : Nat) : Dot := { i := i, uv := ⟨1 / 2, 1 / 2⟩ }

end Globe

/-! # Theorems -/

namespace Globe

/-! ## Image sampling: bounds -/

theorem sampleX_bounds (uv : UV) (h0 : 0 ≤ uv.u) (h1 : uv.u < 1) :
    0 ≤ sampleX uv ∧ sampleX uv ≤ (GLOBE_WIDTH : Int) - 1 := by
  unfold sampleX GLOBE_WIDTH
  push_cast
  constructor
  · exact Int.floor_nonneg.mpr (by positivity)
  · have h : ⌊(3467 : ℚ) * uv.u⌋ < (3467 : Int) := by
      rw [Int.floor_lt]
      push_cast
      nlinarith
    omega

theorem sampleY_bounds (uv : UV) (h0 : 0 ≤ uv.v) (h1 : uv.v < 1) :
    0 ≤ sampleY uv ∧ sampleY uv ≤ (GLOBE_HEIGHT : Int) - 1 := by
  unfold sampleY GLOBE_HEIGHT
  push_cast
  constructor
  · exact Int.floor_nonneg.mpr (by positivity)
  · have h : ⌊(1890 : ℚ) * uv.v⌋ < (1890 : Int) := by
      rw [Int.floor_lt]
      push_cast
      nlinarith
    omega

theorem sampleInd_formula (uv : UV) :
    sampleInd uv =
      [4 * (sampleY uv * GLOBE_WIDTH + sampleX uv),
       4 * (sampleY uv * GLOBE_WIDTH + sampleX uv) + 1,
       4 * (sampleY uv * GLOBE_WIDTH + sampleX uv) + 2,
       4 * (sampleY uv * GLOBE_WIDTH + sampleX uv) + 3] := by
  simp only [sampleInd, getPixelInd]
  congr 1 <;> [skip; congr 1 <;> [skip; congr 1 <;> [skip; congr 1]]] <;> ring

/-- Claim C3, amended.  For every uv with `0 ≤ u < 1` and `0 ≤ v < 1`,
`sampleImage` computes a column `x` in `[0, GLOBE_WIDTH - 1]` and a row `y` in
`[0, GLOBE_HEIGHT - 1]`; the four indices of `getPixelInd` are
`4 * (y * GLOBE_WIDTH + x) + k` for `k = 0, 1, 2, 3`, the four channels of the
pixel at column `x` of row `y`, and each is a valid index, below
`GLOBE_WIDTH * GLOBE_HEIGHT * 4`. -/
theorem sampleImage_indices_in_bounds (uv : UV)
    (hu0 : 0 ≤ uv.u) (hu1 : uv.u < 1) (hv0 : 0 ≤ uv.v) (hv1 : uv.v < 1) :
    (0 ≤ sampleX uv ∧ sampleX uv ≤ (GLOBE_WIDTH : Int) - 1) ∧
    (0 ≤ sampleY uv ∧ sampleY uv ≤ (GLOBE_HEIGHT : Int) - 1) ∧
    sampleInd uv =
      [4 * (sampleY uv * GLOBE_WIDTH + sampleX uv),
       4 * (sampleY uv * GLOBE_WIDTH + sampleX uv) + 1,
       4 * (sampleY uv * GLOBE_WIDTH + sampleX uv) + 2,
       4 * (sampleY uv * GLOBE_WIDTH + sampleX uv) + 3] ∧
    (∀ i ∈ sampleInd uv,
      0 ≤ i ∧ i < ((GLOBE_WIDTH * GLOBE_HEIGHT * 4 : Nat) : Int)) ∧
    (∀ data : ImageData, sampleImage uv data = getColorsFromInd (sampleInd uv) data) := by
  have hx := sampleX_bounds uv hu0 hu1
  have hy := sampleY_bounds uv hv0 hv1
  refine ⟨hx, hy, sampleInd_formula uv, ?_, fun _ => rfl⟩
  intro i hi
  simp only [sampleInd, getPixelInd, List.mem_cons, List.mem_singleton,
    List.not_mem_nil, or_false] at hi
  simp only [GLOBE_WIDTH, GLOBE_HEIGHT] at hx hy hi ⊢
  push_cast at hx hy hi ⊢
  rcases hi with h | h | h | h <;> subst h <;> constructor <;> nlinarith

/-- Witness of `sampleImage_indices_in_bounds` at `u = v = 1/2`. -/
theorem sampleImage_indices_in_bounds_witness :
    ((0 : ℚ) ≤ 1 / 2 ∧ (1 / 2 : ℚ) < 1) ∧
    (0 ≤ sampleX ⟨1 / 2, 1 / 2⟩ ∧ sampleX ⟨1 / 2, 1 / 2⟩ ≤ (GLOBE_WIDTH : Int) - 1) ∧
    (0 ≤ sampleY ⟨1 / 2, 1 / 2⟩ ∧ sampleY ⟨1 / 2, 1 / 2⟩ ≤ (GLOBE_HEIGHT : Int) - 1) :=
  ⟨⟨by norm_num, by norm_num⟩,
   (sampleImage_indices_in_bounds ⟨1 / 2, 1 / 2⟩ (by norm_num) (by norm_num)
      (by norm_num) (by norm_num)).1,
   (sampleImage_indices_in_bounds ⟨1 / 2, 1 / 2⟩ (by norm_num) (by norm_num)
      (by norm_num) (by norm_num)).2.1⟩

/-- Claim C3 as stated fails at `u = v = 1` (an input it names): the column is
`GLOBE_WIDTH`, the row is `GLOBE_HEIGHT`, not the last column and row, and all
four indices lie past the end of a `GLOBE_WIDTH * GLOBE_HEIGHT * 4` buffer. -/
theorem sampleImage_boundary_out_of_range :
    ((0 : ℚ) ≤ 1 ∧ (1 : ℚ) ≤ 1) ∧
    sampleX ⟨1, 1⟩ = GLOBE_WIDTH ∧ ¬ sampleX ⟨1, 1⟩ ≤ (GLOBE_WIDTH : Int) - 1 ∧
    sampleY ⟨1, 1⟩ = GLOBE_HEIGHT ∧ ¬ sampleY ⟨1, 1⟩ ≤ (GLOBE_HEIGHT : Int) - 1 ∧
    (∀ i ∈ sampleInd ⟨1, 1⟩, ¬ i < ((GLOBE_WIDTH * GLOBE_HEIGHT * 4 : Nat) : Int)) := by
  have hx : sampleX ⟨1, 1⟩ = 3467 := by simp [sampleX, GLOBE_WIDTH]
  have hy : sampleY ⟨1, 1⟩ = 1890 := by simp [sampleY, GLOBE_HEIGHT]
  refine ⟨⟨by norm_num, le_refl _⟩, ?_, ?_, ?_, ?_, ?_⟩
  · rw [hx]; rfl
  · rw [hx]; decide
  · rw [hy]; rfl
  · rw [hy]; decide
  · intro i hi
    simp only [sampleInd, getPixelInd, hx, hy, GLOBE_WIDTH, GLOBE_HEIGHT] at hi ⊢
    norm_num at hi
    rcases hi with h | h | h | h <;> subst h <;> norm_num

end Globe

namespace Globe

/-! ## Dot placement: how many dots -/

theorem placeDotsBody_length_le (mapData : ImageData) (newDot : Nat → Dot) (i : Nat)
    (dots : List Dot) :
    (placeDotsBody mapData newDot i dots).length ≤ dots.length + 1 := by
  unfold placeDotsBody
  simp only
  split
  · simp
  · omega

theorem placeDotsLoop_length_le (mapData : ImageData) (newDot : Nat → Dot) :
    ∀ (n : Nat) (dots : List Dot),
      (placeDotsLoop mapData newDot n dots).length ≤ dots.length + (n + 1) := by
  intro n
  induction n with
  | zero =>
    intro dots
    simpa [placeDotsLoop] using placeDotsBody_length_le mapData newDot 0 dots
  | succ n ih =>
    intro dots
    have h1 := placeDotsBody_length_le mapData newDot (n + 1) dots
    have h2 := ih (placeDotsBody mapData newDot (n + 1) dots)
    simp only [placeDotsLoop]
    omega

theorem placeDotsBody_accept (mapData : ImageData) (newDot : Nat → Dot) (i : Nat)
    (dots : List Dot) (h : pixelIsBlank (sampleImage (newDot i).uv mapData) = false) :
    placeDotsBody mapData newDot i dots = dots ++ [newDot i] := by
  simp [placeDotsBody, h]

theorem placeDotsBody_reject (mapData : ImageData) (newDot : Nat → Dot) (i : Nat)
    (dots : List Dot) (h : pixelIsBlank (sampleImage (newDot i).uv mapData) = true) :
    placeDotsBody mapData newDot i dots = dots := by
  simp [placeDotsBody, h]

theorem placeDotsLoop_all_accept (mapData : ImageData) (newDot : Nat → Dot)
    (h : ∀ i, pixelIsBlank (sampleImage (newDot i).uv mapData) = false) :
    ∀ (n : Nat) (dots : List Dot),
      (placeDotsLoop mapData newDot n dots).length = dots.length + (n + 1) := by
  intro n
  induction n with
  | zero =>
    intro dots
    simp [placeDotsLoop, placeDotsBody_accept mapData newDot 0 dots (h 0)]
  | succ n ih =>
    intro dots
    simp only [placeDotsLoop, placeDotsBody_accept mapData newDot (n + 1) dots (h _), ih,
      List.length_append, List.length_singleton]
    omega

theorem placeDotsBody_eq_nil_iff (mapData : ImageData) (newDot : Nat → Dot) (i : Nat)
    (dots : List Dot) :
    placeDotsBody mapData newDot i dots = [] ↔
      dots = [] ∧ pixelIsBlank (sampleImage (newDot i).uv mapData) = true := by
  by_cases h : pixelIsBlank (sampleImage (newDot i).uv mapData) = true
  · rw [placeDotsBody_reject mapData newDot i dots h]
    exact ⟨fun hd => ⟨hd, h⟩, fun hd => hd.1⟩
  · have h' : pixelIsBlank (sampleImage (newDot i).uv mapData) = false := by simpa using h
    rw [placeDotsBody_accept mapData newDot i dots h']
    constructor
    · intro hd
      simp at hd
    · intro hd
      exact absurd hd.2 h

theorem placeDotsLoop_eq_nil_iff (mapData : ImageData) (newDot : Nat → Dot) :
    ∀ (n : Nat) (dots : List Dot),
      placeDotsLoop mapData newDot n dots = [] ↔
        dots = [] ∧ ∀ i, i ≤ n → pixelIsBlank (sampleImage (newDot i).uv mapData) = true := by
  intro n
  induction n with
  | zero =>
    intro dots
    simp only [placeDotsLoop, placeDotsBody_eq_nil_iff, Nat.le_zero]
    constructor
    · rintro ⟨h1, h2⟩
      exact ⟨h1, fun i hi => by rw [hi]; exact h2⟩
    · rintro ⟨h1, h2⟩
      exact ⟨h1, h2 0 rfl⟩
  | succ n ih =>
    intro dots
    simp only [placeDotsLoop, ih, placeDotsBody_eq_nil_iff]
    constructor
    · rintro ⟨⟨h1, h2⟩, h3⟩
      refine ⟨h1, fun i hi => ?_⟩
      rcases Nat.lt_or_ge n i with hlt | hge
      · have : i = n + 1 := by omega
        rw [this]
        exact h2
      · exact h3 i hge
    · rintro ⟨h1, h2⟩
      exact ⟨⟨h1, h2 (n + 1) (le_refl _)⟩, fun i hi => h2 i (by omega)⟩

theorem sampleInd_centre :
    sampleInd ⟨1 / 2, 1 / 2⟩ = [13112192, 13112193, 13112194, 13112195] := by
  have hx : sampleX ⟨1 / 2, 1 / 2⟩ = 1733 := by
    simp only [sampleX, GLOBE_WIDTH]; rw [Int.floor_eq_iff]; norm_num
  have hy : sampleY ⟨1 / 2, 1 / 2⟩ = 945 := by
    simp only [sampleY, GLOBE_HEIGHT]; rw [Int.floor_eq_iff]; norm_num
  simp only [sampleInd, getPixelInd, hx, hy, GLOBE_WIDTH]
  norm_num

theorem sampleInd_southPole :
    sampleInd ⟨1 / 2, 1⟩ = [26217452, 26217453, 26217454, 26217455] := by
  have hx : sampleX ⟨1 / 2, 1⟩ = 1733 := by
    simp only [sampleX, GLOBE_WIDTH]; rw [Int.floor_eq_iff]; norm_num
  have hy : sampleY ⟨1 / 2, 1⟩ = 1890 := by
    simp [sampleY, GLOBE_HEIGHT]
  simp only [sampleInd, getPixelInd, hx, hy, GLOBE_WIDTH]
  norm_num

theorem imageSize_eq : GLOBE_WIDTH * GLOBE_HEIGHT * 4 = 26210520 := by
  decide

theorem whiteImage_read (k : Nat) (h : k < 26210520) : whiteImage[k]? = some 255 := by
  unfold whiteImage
  rw [List.getElem?_replicate, if_pos (by rw [imageSize_eq]; exact h)]

theorem blackImage_read (k : Nat) (h : k < 26210520) : blackImage[k]? = some 0 := by
  unfold blackImage
  rw [List.getElem?_replicate, if_pos (by rw [imageSize_eq]; exact h)]

theorem blackImage_read_past (k : Nat) (h : 26210520 ≤ k) : blackImage[k]? = none := by
  unfold blackImage
  rw [List.getElem?_replicate, if_neg (by rw [imageSize_eq]; omega)]

theorem readSample_white (k : Int) (h0 : 0 ≤ k) (h1 : k < 26210520) :
    readSample whiteImage k = some 255 := by
  unfold readSample
  rw [if_pos h0]
  exact whiteImage_read _ (by omega)

theorem readSample_black (k : Int) (h0 : 0 ≤ k) (h1 : k < 26210520) :
    readSample blackImage k = some 0 := by
  unfold readSample
  rw [if_pos h0]
  exact blackImage_read _ (by omega)

theorem readSample_black_past (k : Int) (h1 : 26210520 ≤ k) :
    readSample blackImage k = none := by
  unfold readSample
  rw [if_pos (by omega)]
  exact blackImage_read_past _ (by omega)

theorem getColorsFromInd_four (a b c d : Int) (data : ImageData) :
    getColorsFromInd [a, b, c, d] data =
      [readSample data a, readSample data b, readSample data c, readSample data d] :=
  rfl

theorem sampleImage_eq (uv : UV) (data : ImageData) :
    sampleImage uv data = getColorsFromInd (sampleInd uv) data :=
  rfl

theorem pixelIsBlank_four (r g b a : Option Nat) :
    pixelIsBlank [r, g, b, a] = true ↔ r = some 0 ∧ g = some 0 ∧ b = some 0 := by
  simp [pixelIsBlank, and_assoc]

theorem sampleImage_white_centre :
    sampleImage ⟨1 / 2, 1 / 2⟩ whiteImage = [some 255, some 255, some 255, some 255] := by
  rw [sampleImage_eq, sampleInd_centre, getColorsFromInd_four,
    readSample_white _ (by omega) (by omega), readSample_white _ (by omega) (by omega),
    readSample_white _ (by omega) (by omega), readSample_white _ (by omega) (by omega)]

theorem sampleImage_black_southPole :
    sampleImage ⟨1 / 2, 1⟩ blackImage = [none, none, none, none] := by
  rw [sampleImage_eq, sampleInd_southPole, getColorsFromInd_four,
    readSample_black_past _ (by omega), readSample_black_past _ (by omega),
    readSample_black_past _ (by omega), readSample_black_past _ (by omega)]

/-- Claim C4, amended.  For every mask image, after `placeDots` has run on an
initially empty dot collection, the number of Dots is at most `DOT_COUNT + 1`:
the loop index runs from `DOT_COUNT` down to `0`, both included. -/
theorem placeDots_length_le (mapData : ImageData) (newDot : Nat → Dot) :
    (placeDots mapData newDot []).length ≤ DOT_COUNT + 1 := by
  unfold placeDots
  have h := placeDotsLoop_length_le mapData newDot DOT_COUNT []
  rw [List.length_nil, Nat.zero_add] at h
  exact h

/-- Claim C4 as stated fails on a fully white image: `placeDots` leaves
`DOT_COUNT + 1 = 30001` Dots, more than `DOT_COUNT`. -/
theorem placeDots_white_exceeds_DOT_COUNT :
    (placeDots whiteImage centreDot []).length = 30001 ∧
    ¬ (placeDots whiteImage centreDot []).length ≤ DOT_COUNT := by
  have hacc : ∀ i, pixelIsBlank (sampleImage (centreDot i).uv whiteImage) = false := by
    intro i
    show pixelIsBlank (sampleImage ⟨1 / 2, 1 / 2⟩ whiteImage) = false
    rw [sampleImage_white_centre, Bool.eq_false_iff]
    intro hb
    rw [pixelIsBlank_four] at hb
    exact absurd hb.1 (by decide)
  have h : (placeDots whiteImage centreDot []).length = DOT_COUNT + 1 := by
    unfold placeDots
    rw [placeDotsLoop_all_accept whiteImage centreDot hacc DOT_COUNT []]
    simp
  have hc : DOT_COUNT + 1 = 30001 := by decide
  refine ⟨by rw [h, hc], ?_⟩
  rw [h]
  omega

end Globe

namespace Globe

/-! ## Dot placement on a black image -/

theorem readSample_natCast (data : ImageData) (i : Int) (n : Nat) (h : i = (n : Int)) :
    readSample data i = data[n]? := by
  subst h
  simp [readSample]

theorem pixelIndex_lt (uv : UV)
    (hu0 : 0 ≤ uv.u) (hu1 : uv.u < 1) (hv0 : 0 ≤ uv.v) (hv1 : uv.v < 1) :
    ∃ p : Nat, p < GLOBE_WIDTH * GLOBE_HEIGHT ∧
      sampleInd uv = [((4 * p : Nat) : Int), ((4 * p + 1 : Nat) : Int),
        ((4 * p + 2 : Nat) : Int), ((4 * p + 3 : Nat) : Int)] := by
  have hx := sampleX_bounds uv hu0 hu1
  have hy := sampleY_bounds uv hv0 hv1
  have hind := sampleInd_formula uv
  have hnn : 0 ≤ sampleY uv * (GLOBE_WIDTH : Int) + sampleX uv := by
    have : 0 ≤ sampleY uv * (GLOBE_WIDTH : Int) :=
      mul_nonneg hy.1 (Int.ofNat_nonneg _)
    omega
  refine ⟨(sampleY uv * (GLOBE_WIDTH : Int) + sampleX uv).toNat, ?_, ?_⟩
  · have hlt : sampleY uv * (GLOBE_WIDTH : Int) + sampleX uv
        < ((GLOBE_WIDTH * GLOBE_HEIGHT : Nat) : Int) := by
      simp only [GLOBE_WIDTH, GLOBE_HEIGHT] at hx hy ⊢
      push_cast at hx hy ⊢
      nlinarith
    omega
  · rw [hind]
    have hp : (((sampleY uv * (GLOBE_WIDTH : Int) + sampleX uv).toNat : Nat) : Int)
        = sampleY uv * (GLOBE_WIDTH : Int) + sampleX uv := Int.toNat_of_nonneg hnn
    push_cast
    rw [hp]

/-- Claim C5, amended.  For every image whose pixels inside the
`GLOBE_WIDTH` x `GLOBE_HEIGHT` grid all have `R = G = B = 0`, every sample point
with `0 ≤ u < 1` and `0 ≤ v < 1` is classified blank; `placeDots` leaves the
DotField empty exactly when the sample point of each Dot it builds (loop
indices `0 .. DOT_COUNT`) is classified blank; so with every Dot sampled at
such a uv, `placeDots` adds no Dot and the DotField is empty. -/
theorem placeDots_black_image_empty (data : ImageData)
    (hblack : ∀ p : Nat, p < GLOBE_WIDTH * GLOBE_HEIGHT →
      data[4 * p]? = some 0 ∧ data[4 * p + 1]? = some 0 ∧ data[4 * p + 2]? = some 0) :
    (∀ uv : UV, 0 ≤ uv.u → uv.u < 1 → 0 ≤ uv.v → uv.v < 1 →
      pixelIsBlank (sampleImage uv data) = true) ∧
    (∀ newDot : Nat → Dot,
      placeDots data newDot [] = [] ↔
        ∀ i, i ≤ DOT_COUNT → pixelIsBlank (sampleImage (newDot i).uv data) = true) ∧
    (∀ newDot : Nat → Dot,
      (∀ i, i ≤ DOT_COUNT → 0 ≤ (newDot i).uv.u ∧ (newDot i).uv.u < 1 ∧
        0 ≤ (newDot i).uv.v ∧ (newDot i).uv.v < 1) →
      placeDots data newDot [] = []) := by
  have hblank : ∀ uv : UV, 0 ≤ uv.u → uv.u < 1 → 0 ≤ uv.v → uv.v < 1 →
      pixelIsBlank (sampleImage uv data) = true := by
    intro uv hu0 hu1 hv0 hv1
    obtain ⟨p, hp, hind⟩ := pixelIndex_lt uv hu0 hu1 hv0 hv1
    obtain ⟨hr, hg, hb⟩ := hblack p hp
    rw [sampleImage_eq, hind, getColorsFromInd_four, pixelIsBlank_four,
      readSample_natCast data _ _ rfl, readSample_natCast data _ _ rfl,
      readSample_natCast data _ _ rfl]
    exact ⟨hr, hg, hb⟩
  have hiff : ∀ newDot : Nat → Dot,
      placeDots data newDot [] = [] ↔
        ∀ i, i ≤ DOT_COUNT → pixelIsBlank (sampleImage (newDot i).uv data) = true := by
    intro newDot
    unfold placeDots
    rw [placeDotsLoop_eq_nil_iff data newDot DOT_COUNT []]
    exact ⟨fun h => h.2, fun h => ⟨rfl, h⟩⟩
  refine ⟨hblank, hiff, ?_⟩
  intro newDot hdots
  rw [hiff newDot]
  intro i hi
  obtain ⟨h1, h2, h3, h4⟩ := hdots i hi
  exact hblank _ h1 h2 h3 h4

theorem blackImage_black (p : Nat) (hp : p < GLOBE_WIDTH * GLOBE_HEIGHT) :
    blackImage[4 * p]? = some 0 ∧ blackImage[4 * p + 1]? = some 0 ∧
      blackImage[4 * p + 2]? = some 0 := by
  have h4 := imageSize_eq
  refine ⟨blackImage_read _ ?_, blackImage_read _ ?_, blackImage_read _ ?_⟩ <;> omega

/-- Witness of `placeDots_black_image_empty`: the black test image, with all
Dots projecting to the middle of the image. -/
theorem placeDots_black_image_empty_witness :
    pixelIsBlank (sampleImage ⟨1 / 2, 1 / 2⟩ blackImage) = true ∧
    placeDots blackImage centreDot [] = [] :=
  ⟨(placeDots_black_image_empty blackImage blackImage_black).1 ⟨1 / 2, 1 / 2⟩
      (by norm_num) (by norm_num) (by norm_num) (by norm_num),
   (placeDots_black_image_empty blackImage blackImage_black).2.2 centreDot
      (fun _ _ => ⟨by norm_num [centreDot], by norm_num [centreDot],
        by norm_num [centreDot], by norm_num [centreDot]⟩)⟩

/-- The south pole `(0, -1, 0)` is a point whose uv, as computed by
`pointToUV`, is `(1/2, 1)`: `v = 1` is a value `pointToUV` produces. -/
theorem pointToUV_southPole : pointToUV ⟨0, -1, 0⟩ = (1 / 2, 1) := by
  have hpi : Real.pi ≠ 0 := Real.pi_ne_zero
  have hz : (⟨0, 0⟩ : ℂ) = 0 := rfl
  simp only [pointToUV, Vector3.normalize, atan2]
  norm_num [hz, Real.arcsin_neg_one]
  field_simp
  ring

/-- The range of `pointToUV`: `0 < u ≤ 1` and `0 ≤ v ≤ 1` for every point;
`v = 1` only for a normal with `y ≤ -1` (a point on the negative y axis) and
`u = 1` only for a normal with `x = 0` and `z < 0`. -/
theorem pointToUV_range (point : Vector3) :
    (0 < (pointToUV point).1 ∧ (pointToUV point).1 ≤ 1) ∧
    (0 ≤ (pointToUV point).2 ∧ (pointToUV point).2 ≤ 1) ∧
    ((pointToUV point).2 = 1 ↔ point.normalize.y ≤ -1) ∧
    ((pointToUV point).1 = 1 ↔ point.normalize.z < 0 ∧ point.normalize.x = 0) := by
  have hpi := Real.pi_pos
  have h2pi : (0 : ℝ) < 2 * Real.pi := by linarith
  have ha1 := Complex.neg_pi_lt_arg (⟨point.normalize.z, point.normalize.x⟩ : ℂ)
  have ha2 := Complex.arg_le_pi (⟨point.normalize.z, point.normalize.x⟩ : ℂ)
  have hs1 := Real.neg_pi_div_two_le_arcsin point.normalize.y
  have hs2 := Real.arcsin_le_pi_div_two point.normalize.y
  have hu : (pointToUV point).1
      = 1 / 2 + Complex.arg (⟨point.normalize.z, point.normalize.x⟩ : ℂ) / (2 * Real.pi) :=
    rfl
  have hv : (pointToUV point).2 = 1 / 2 - Real.arcsin point.normalize.y / Real.pi := rfl
  rw [hu, hv]
  refine ⟨⟨?_, ?_⟩, ⟨?_, ?_⟩, ?_, ?_⟩
  · have : -(1 / 2) < Complex.arg (⟨point.normalize.z, point.normalize.x⟩ : ℂ)
        / (2 * Real.pi) := by
      rw [lt_div_iff₀ h2pi]; linarith
    linarith
  · have : Complex.arg (⟨point.normalize.z, point.normalize.x⟩ : ℂ)
        / (2 * Real.pi) ≤ 1 / 2 := by
      rw [div_le_iff₀ h2pi]; linarith
    linarith
  · have : Real.arcsin point.normalize.y / Real.pi ≤ 1 / 2 := by
      rw [div_le_iff₀ hpi]; linarith
    linarith
  · have : -(1 / 2) ≤ Real.arcsin point.normalize.y / Real.pi := by
      rw [le_div_iff₀ hpi]; linarith
    linarith
  · rw [← Real.arcsin_eq_neg_pi_div_two]
    constructor
    · intro h
      have h' : Real.arcsin point.normalize.y / Real.pi = -(1 / 2) := by linarith
      rw [div_eq_iff hpi.ne'] at h'
      linarith
    · intro h
      rw [h]
      field_simp
      ring
  · have harg : (point.normalize.z < 0 ∧ point.normalize.x = 0)
        ↔ Complex.arg (⟨point.normalize.z, point.normalize.x⟩ : ℂ) = Real.pi :=
      (Complex.arg_eq_pi_iff
        (z := (⟨point.normalize.z, point.normalize.x⟩ : ℂ))).symm
    rw [harg]
    constructor
    · intro h
      have h' : Complex.arg (⟨point.normalize.z, point.normalize.x⟩ : ℂ)
          / (2 * Real.pi) = 1 / 2 := by linarith
      rw [div_eq_iff h2pi.ne'] at h'
      linarith
    · intro h
      rw [h]
      field_simp
      ring

/-- Claim C5 as stated fails at `v = 1`, a value with `u` and `v` in `[0, 1]`
that `pointToUV` produces (for the south pole `(0, -1, 0)`): on the fully
black image the sample at `(u, v) = (1/2, 1)` is read past the end of the
buffer, all four channels are `undefined`, and the sample point is not
classified blank. -/
theorem sampleImage_black_southPole_not_blank :
    pointToUV ⟨0, -1, 0⟩ = (1 / 2, 1) ∧
    ((0 : ℚ) ≤ 1 / 2 ∧ (1 / 2 : ℚ) ≤ 1 ∧ (0 : ℚ) ≤ 1 ∧ (1 : ℚ) ≤ 1) ∧
    sampleImage ⟨1 / 2, 1⟩ blackImage = [none, none, none, none] ∧
    pixelIsBlank (sampleImage ⟨1 / 2, 1⟩ blackImage) = false := by
  have hnb : pixelIsBlank (sampleImage ⟨1 / 2, 1⟩ blackImage) = false := by
    rw [sampleImage_black_southPole, Bool.eq_false_iff]
    intro hb
    rw [pixelIsBlank_four] at hb
    exact absurd hb.1 (by decide)
  exact ⟨pointToUV_southPole, ⟨by norm_num, by norm_num, by norm_num, le_refl _⟩,
    sampleImage_black_southPole, hnb⟩

end Globe

namespace Globe

/-! ## The Arc constructor: dot indices -/

theorem readDot_nil (i : Int) : readDot [] i = none := by
  unfold readDot
  split <;> simp

theorem Arc.construct_nil (r1 r2 now : ℚ) :
    Arc.construct [] r1 r2 now = Except.error ArcError.typeError := by
  simp [Arc.construct, readDot_nil]

/-- Claim C2 at a failing input: with one Dot (`L = 1`) and the random draw
`r1 = 1/2`, in `[0, 1)`, the constructor computes `startInd = 1 = L`, reads
`dots[1]`, which is `undefined`, and throws a `TypeError`. -/
theorem Arc.construct_index_out_of_range :
    randomDotIndex [centreDot 0] (1 / 2) = 1 ∧
    ¬ randomDotIndex [centreDot 0] (1 / 2) < (([centreDot 0] : List Dot).length : Int) ∧
    readDot [centreDot 0] 1 = none ∧
    Arc.construct [centreDot 0] (1 / 2) 0 0 = Except.error ArcError.typeError := by
  have h1 : randomDotIndex [centreDot 0] (1 / 2) = 1 := by
    simp only [randomDotIndex, List.length_singleton]
    rw [Int.floor_eq_iff]
    norm_num
  have h2 : readDot [centreDot 0] 1 = none := by
    simp [readDot]
  refine ⟨h1, ?_, h2, ?_⟩
  · rw [h1]; simp
  · simp only [Arc.construct, h1, h2]

end Globe

namespace Globe

/-! ## The arc lifecycle: one call of `drawAnimatedLine` -/

/-- The progress ratio a call computes at line 502. -/
theorem Arc.drawAnimatedLine_progress (a : Arc) (now1 now2 : ℚ) :
    (a.drawAnimatedLine now1 now2).progress
      = (now1 - a.startTime) / ((ARC_DURATION : ℚ) / 2) := by
  unfold Arc.drawAnimatedLine
  simp only
  split_ifs <;> simp_all

/-- Revealing, threshold not reached: the draw range is `(0, cursor)`. -/
theorem Arc.drawAnimatedLine_revealing (a : Arc) (now1 now2 : ℚ)
    (hr : a.hasReachedEnd = false)
    (hp : (now1 - a.startTime) / ((ARC_DURATION : ℚ) / 2) < 999 / 1000) :
    a.drawAnimatedLine now1 now2 =
      { a with progress := (now1 - a.startTime) / ((ARC_DURATION : ℚ) / 2),
               drawStart := 0,
               drawCount := (now1 - a.startTime) / ((ARC_DURATION : ℚ) / 2)
                 * (ARC_VERTICES : ℚ) } := by
  unfold Arc.drawAnimatedLine
  simp [hr, hp]

/-- Revealing, threshold reached: the arc switches to receding and the phase
timer is reset to `now2`. -/
theorem Arc.drawAnimatedLine_switch (a : Arc) (now1 now2 : ℚ)
    (hr : a.hasReachedEnd = false)
    (hp : ¬ (now1 - a.startTime) / ((ARC_DURATION : ℚ) / 2) < 999 / 1000) :
    a.drawAnimatedLine now1 now2 =
      { a with progress := (now1 - a.startTime) / ((ARC_DURATION : ℚ) / 2),
               hasReachedEnd := true,
               startTime := now2,
               drawStart := -((now1 - a.startTime) / ((ARC_DURATION : ℚ) / 2)
                 * (ARC_VERTICES : ℚ)),
               drawCount := (ARC_VERTICES : ℚ) } := by
  unfold Arc.drawAnimatedLine
  simp [hr, hp]

/-- Receding, threshold not reached: the draw range is `(-cursor, ARC_VERTICES)`. -/
theorem Arc.drawAnimatedLine_receding (a : Arc) (now1 now2 : ℚ)
    (hr : a.hasReachedEnd = true)
    (hp : (now1 - a.startTime) / ((ARC_DURATION : ℚ) / 2) < 999 / 1000) :
    a.drawAnimatedLine now1 now2 =
      { a with progress := (now1 - a.startTime) / ((ARC_DURATION : ℚ) / 2),
               drawStart := -((now1 - a.startTime) / ((ARC_DURATION : ℚ) / 2)
                 * (ARC_VERTICES : ℚ)),
               drawCount := (ARC_VERTICES : ℚ) } := by
  unfold Arc.drawAnimatedLine
  simp [hr, hp]

/-- Receding, threshold reached: the arc is flagged done. -/
theorem Arc.drawAnimatedLine_done (a : Arc) (now1 now2 : ℚ)
    (hr : a.hasReachedEnd = true)
    (hp : ¬ (now1 - a.startTime) / ((ARC_DURATION : ℚ) / 2) < 999 / 1000) :
    a.drawAnimatedLine now1 now2 =
      { a with progress := (now1 - a.startTime) / ((ARC_DURATION : ℚ) / 2),
               isDone := true } := by
  unfold Arc.drawAnimatedLine
  simp [hr, hp]

theorem halfDuration_pos : (0 : ℚ) < (ARC_DURATION : ℚ) / 2 := by
  norm_num [ARC_DURATION]

end Globe

namespace Globe

/-! ## The receding phase: the draw range -/

/-- Claim C6, amended.  In two successive `drawAnimatedLine` calls made while
the arc is in the receding phase (`hasReachedEnd` is true at entry and the arc
is not done after either call), with non-decreasing clock readings,
the draw range is set to start at `-cursor` with count `ARC_VERTICES`, where
`cursor = progress * ARC_VERTICES` for
`progress = (time since the phase timer was reset) / (ARC_DURATION / 2)`;
the start lies in `[-ARC_VERTICES, 0]` and is non-increasing from the first
call to the second. -/
theorem Arc.receding_drawRange (a : Arc) (now1 now2 now1' now2' : ℚ)
    (hr : a.hasReachedEnd = true)
    (ht : a.startTime ≤ now1) (hmono : now1 ≤ now1')
    (hb : (a.drawAnimatedLine now1 now2).isDone = false)
    (hc : ((a.drawAnimatedLine now1 now2).drawAnimatedLine now1' now2').isDone = false) :
    (a.drawAnimatedLine now1 now2).drawStart
        = -((now1 - a.startTime) / ((ARC_DURATION : ℚ) / 2) * (ARC_VERTICES : ℚ)) ∧
    (a.drawAnimatedLine now1 now2).drawCount = (ARC_VERTICES : ℚ) ∧
    -(ARC_VERTICES : ℚ) ≤ (a.drawAnimatedLine now1 now2).drawStart ∧
    (a.drawAnimatedLine now1 now2).drawStart ≤ 0 ∧
    ((a.drawAnimatedLine now1 now2).drawAnimatedLine now1' now2').drawStart
        = -((now1' - a.startTime) / ((ARC_DURATION : ℚ) / 2) * (ARC_VERTICES : ℚ)) ∧
    ((a.drawAnimatedLine now1 now2).drawAnimatedLine now1' now2').drawCount
        = (ARC_VERTICES : ℚ) ∧
    -(ARC_VERTICES : ℚ)
        ≤ ((a.drawAnimatedLine now1 now2).drawAnimatedLine now1' now2').drawStart ∧
    ((a.drawAnimatedLine now1 now2).drawAnimatedLine now1' now2').drawStart
        ≤ (a.drawAnimatedLine now1 now2).drawStart := by
  have hp1 : (now1 - a.startTime) / ((ARC_DURATION : ℚ) / 2) < 999 / 1000 := by
    by_contra hn
    rw [Arc.drawAnimatedLine_done a now1 now2 hr hn] at hb
    simp at hb
  have e1 := Arc.drawAnimatedLine_receding a now1 now2 hr hp1
  have hbr : (a.drawAnimatedLine now1 now2).hasReachedEnd = true := by
    rw [e1]; exact hr
  have hbs : (a.drawAnimatedLine now1 now2).startTime = a.startTime := by
    rw [e1]
  have hb1 : (a.drawAnimatedLine now1 now2).drawStart
      = -((now1 - a.startTime) / ((ARC_DURATION : ℚ) / 2) * (ARC_VERTICES : ℚ)) := by
    rw [e1]
  have hb2 : (a.drawAnimatedLine now1 now2).drawCount = (ARC_VERTICES : ℚ) := by
    rw [e1]
  have hp2 : (now1' - (a.drawAnimatedLine now1 now2).startTime)
      / ((ARC_DURATION : ℚ) / 2) < 999 / 1000 := by
    by_contra hn
    rw [Arc.drawAnimatedLine_done _ now1' now2' hbr hn] at hc
    simp at hc
  have e2 := Arc.drawAnimatedLine_receding _ now1' now2' hbr hp2
  have hc1 : ((a.drawAnimatedLine now1 now2).drawAnimatedLine now1' now2').drawStart
      = -((now1' - a.startTime) / ((ARC_DURATION : ℚ) / 2) * (ARC_VERTICES : ℚ)) := by
    rw [e2]
    simp only [hbs]
  have hc2 : ((a.drawAnimatedLine now1 now2).drawAnimatedLine now1' now2').drawCount
      = (ARC_VERTICES : ℚ) := by
    rw [e2]
  rw [hbs] at hp2
  rw [hc1, hc2, hb1, hb2]
  simp only [ARC_DURATION, ARC_VERTICES] at hp1 hp2 ⊢
  push_cast at hp1 hp2 ⊢
  refine ⟨trivial, trivial, ?_, ?_, trivial, trivial, ?_, ?_⟩ <;> linarith

/-- Witness of `Arc.receding_drawRange`: an arc whose phase timer was reset at
`2000`, advanced at clock readings `3000` and `3500`. -/
theorem Arc.receding_drawRange_witness :
    (({ Arc.fresh 0 0 2000 with hasReachedEnd := true }.drawAnimatedLine 3000 3000
        ).drawAnimatedLine 3500 3500).drawStart
      ≤ ({ Arc.fresh 0 0 2000 with hasReachedEnd := true }.drawAnimatedLine 3000 3000
        ).drawStart :=
  (Arc.receding_drawRange { Arc.fresh 0 0 2000 with hasReachedEnd := true }
    3000 3000 3500 3500 rfl (by norm_num [Arc.fresh]) (by norm_num)
    (by norm_num [Arc.drawAnimatedLine, Arc.fresh, ARC_DURATION])
    (by norm_num [Arc.drawAnimatedLine, Arc.fresh, ARC_DURATION])).2.2.2.2.2.2.2

/-- Claim C6 as stated fails.  An arc created at clock reading `0` and advanced
at `2000`, `3000`, `3500` is receding and not done in the last two calls; there
the cursor (`progress * ARC_VERTICES`) is `1500` and then `2250`, but the draw
range starts at `-1500` and then at `-2250`: not at the cursor, outside
`[0, ARC_VERTICES]`, and decreasing. -/
theorem Arc.receding_drawStart_negative :
    clockOK 0 [(2000, 2000), (3000, 3000), (3500, 3500)] ∧
    ((Arc.fresh 0 0 0).run [(2000, 2000)]).hasReachedEnd = true ∧
    ((Arc.fresh 0 0 0).run [(2000, 2000), (3000, 3000)]).isDone = false ∧
    ((Arc.fresh 0 0 0).run [(2000, 2000), (3000, 3000), (3500, 3500)]).isDone = false ∧
    ((Arc.fresh 0 0 0).run [(2000, 2000), (3000, 3000)]).progress * (ARC_VERTICES : ℚ)
      = 1500 ∧
    ((Arc.fresh 0 0 0).run [(2000, 2000), (3000, 3000)]).drawStart = -1500 ∧
    ((Arc.fresh 0 0 0).run [(2000, 2000), (3000, 3000)]).drawCount = 3000 ∧
    ((Arc.fresh 0 0 0).run [(2000, 2000), (3000, 3000), (3500, 3500)]).drawStart
      = -2250 ∧
    ¬ (0 ≤ ((Arc.fresh 0 0 0).run [(2000, 2000), (3000, 3000)]).drawStart) ∧
    ¬ (((Arc.fresh 0 0 0).run [(2000, 2000), (3000, 3000)]).drawStart ≤
        ((Arc.fresh 0 0 0).run [(2000, 2000), (3000, 3000), (3500, 3500)]).drawStart) := by
  norm_num [clockOK, Arc.run, Arc.drawAnimatedLine, Arc.fresh, ARC_DURATION, ARC_VERTICES]

end Globe

namespace Globe

/-! ## The arc lifecycle over a sequence of calls -/

theorem clockOK_append (t : ℚ) (rs : List (ℚ × ℚ)) (r : ℚ × ℚ) :
    clockOK t (rs ++ [r]) →
      clockOK t rs ∧ r.1 ≤ r.2 ∧ ∃ t1, t ≤ t1 ∧ t1 ≤ r.1 ∧
        (∀ a : Arc, a.startTime ≤ t → (a.run rs).startTime ≤ t1) := by
  induction rs generalizing t with
  | nil =>
    intro h
    simp only [List.nil_append, clockOK] at h
    exact ⟨trivial, h.2.1, t, le_refl _, h.1, fun a ha => ha⟩
  | cons q qs ih =>
    intro h
    simp only [List.cons_append, clockOK] at h
    obtain ⟨h1, h2, h3⟩ := h
    obtain ⟨i1, i2, t1, i3, i4, i5⟩ := ih q.2 h3
    refine ⟨⟨h1, h2, i1⟩, i2, t1, by linarith, i4, ?_⟩
    intro a ha
    simp only [Arc.run]
    apply i5
    by_cases hr : a.hasReachedEnd = true
    · by_cases hp : (q.1 - a.startTime) / ((ARC_DURATION : ℚ) / 2) < 999 / 1000
      · rw [Arc.drawAnimatedLine_receding a q.1 q.2 hr hp]
        show a.startTime ≤ q.2
        linarith
      · rw [Arc.drawAnimatedLine_done a q.1 q.2 hr hp]
        show a.startTime ≤ q.2
        linarith
    · have hr' : a.hasReachedEnd = false := by simpa using hr
      by_cases hp : (q.1 - a.startTime) / ((ARC_DURATION : ℚ) / 2) < 999 / 1000
      · rw [Arc.drawAnimatedLine_revealing a q.1 q.2 hr' hp]
        show a.startTime ≤ q.2
        linarith
      · rw [Arc.drawAnimatedLine_switch a q.1 q.2 hr' hp]

theorem PhaseInv_step (t0 : ℚ) (a : Arc) (now1 now2 : ℚ) (h12 : now1 ≤ now2)
    (hinv : PhaseInv t0 a) : PhaseInv t0 (a.drawAnimatedLine now1 now2) := by
  have hpos := halfDuration_pos
  by_cases hr : a.hasReachedEnd = true
  · by_cases hp : (now1 - a.startTime) / ((ARC_DURATION : ℚ) / 2) < 999 / 1000
    · rw [Arc.drawAnimatedLine_receding a now1 now2 hr hp]
      exact hinv
    · rw [Arc.drawAnimatedLine_done a now1 now2 hr hp]
      exact hinv
  · have hr' : a.hasReachedEnd = false := by simpa using hr
    by_cases hp : (now1 - a.startTime) / ((ARC_DURATION : ℚ) / 2) < 999 / 1000
    · rw [Arc.drawAnimatedLine_revealing a now1 now2 hr' hp]
      exact hinv
    · rw [Arc.drawAnimatedLine_switch a now1 now2 hr' hp]
      refine ⟨fun h => by simp at h, fun _ => ?_⟩
      show t0 + 999 / 1000 * ((ARC_DURATION : ℚ) / 2) ≤ now2
      have hs := hinv.1 hr'
      rw [hs, not_lt, le_div_iff₀ hpos] at hp
      linarith

theorem PhaseInv_run (t0 : ℚ) (rs : List (ℚ × ℚ)) :
    ∀ (t : ℚ) (a : Arc), clockOK t rs → PhaseInv t0 a → PhaseInv t0 (a.run rs) := by
  induction rs with
  | nil => intro t a _ h; exact h
  | cons q qs ih =>
    intro t a hclk hinv
    simp only [clockOK] at hclk
    simp only [Arc.run]
    exact ih q.2 _ hclk.2.2 (PhaseInv_step t0 a q.1 q.2 hclk.2.1 hinv)

theorem PhaseInv_fresh (si ei : Int) (t0 : ℚ) : PhaseInv t0 (Arc.fresh si ei t0) :=
  ⟨fun _ => rfl, fun h => by simp [Arc.fresh] at h⟩

end Globe

namespace Globe

/-! ## The arc lifecycle: order of the states, lifetime, progress -/

/-- Claim C7.  For every non-decreasing sequence of clock readings, in the
call of `drawAnimatedLine` that sets `isDone` on an arc created at `t0`,
`hasReachedEnd` was already set by an earlier call (the arc walks
Revealing -> RecedingFromStart -> Disposed without skipping a state) and the
clock reading of that call is at least `0.999 * ARC_DURATION` after `t0`. -/
theorem Arc.done_after_receding_and_lifetime (si ei : Int) (t0 : ℚ)
    (rs : List (ℚ × ℚ)) (r : ℚ × ℚ)
    (hclk : clockOK t0 (rs ++ [r]))
    (hnot : ((Arc.fresh si ei t0).run rs).isDone = false)
    (hdone : (((Arc.fresh si ei t0).run rs).drawAnimatedLine r.1 r.2).isDone = true) :
    ((Arc.fresh si ei t0).run rs).hasReachedEnd = true ∧
    999 / 1000 * (ARC_DURATION : ℚ) ≤ r.1 - t0 := by
  have hpos := halfDuration_pos
  obtain ⟨hrs, -, -⟩ := clockOK_append t0 rs r hclk
  have hinv := PhaseInv_run t0 rs t0 _ hrs (PhaseInv_fresh si ei t0)
  by_cases hr : ((Arc.fresh si ei t0).run rs).hasReachedEnd = true
  · refine ⟨hr, ?_⟩
    by_cases hp : (r.1 - ((Arc.fresh si ei t0).run rs).startTime)
        / ((ARC_DURATION : ℚ) / 2) < 999 / 1000
    · rw [Arc.drawAnimatedLine_receding _ r.1 r.2 hr hp] at hdone
      rw [hnot] at hdone
      exact absurd hdone (by simp)
    · have hs := hinv.2 hr
      rw [not_lt, le_div_iff₀ hpos] at hp
      linarith
  · have hr' : ((Arc.fresh si ei t0).run rs).hasReachedEnd = false := by simpa using hr
    by_cases hp : (r.1 - ((Arc.fresh si ei t0).run rs).startTime)
        / ((ARC_DURATION : ℚ) / 2) < 999 / 1000
    · rw [Arc.drawAnimatedLine_revealing _ r.1 r.2 hr' hp] at hdone
      rw [hnot] at hdone
      exact absurd hdone (by simp)
    · rw [Arc.drawAnimatedLine_switch _ r.1 r.2 hr' hp] at hdone
      rw [hnot] at hdone
      exact absurd hdone (by simp)

/-- Witness of `Arc.done_after_receding_and_lifetime`: an arc created at `0`
and advanced at `1000`, `2000`, `3000`, `4000` is flagged done by the call at
`4000`. -/
theorem Arc.done_after_receding_and_lifetime_witness :
    ((Arc.fresh 0 0 0).run [(1000, 1000), (2000, 2000), (3000, 3000)]).hasReachedEnd
      = true ∧
    999 / 1000 * (ARC_DURATION : ℚ) ≤ ((4000, 4000) : ℚ × ℚ).1 - 0 :=
  Arc.done_after_receding_and_lifetime 0 0 0
    [(1000, 1000), (2000, 2000), (3000, 3000)] (4000, 4000)
    (by norm_num [clockOK])
    (by norm_num [Arc.run, Arc.drawAnimatedLine, Arc.fresh, ARC_DURATION, ARC_VERTICES])
    (by norm_num [Arc.run, Arc.drawAnimatedLine, Arc.fresh, ARC_DURATION, ARC_VERTICES])

/-- Claim C8, amended.  The progress ratio stored on an arc is `0` after
construction and, for every non-decreasing sequence of clock readings, after
every `drawAnimatedLine` call it is
`(clock reading - phase timer at entry) / (ARC_DURATION / 2)`, which is
at least `0`; it is below `0.999` after every call that neither switches the
arc to the receding phase nor flags it done.  (No upper bound holds after
the other calls.) -/
theorem Arc.progress_nonneg (si ei : Int) (t0 : ℚ) (rs : List (ℚ × ℚ)) (r : ℚ × ℚ)
    (hclk : clockOK t0 (rs ++ [r])) :
    (Arc.fresh si ei t0).progress = 0 ∧
    (((Arc.fresh si ei t0).run rs).drawAnimatedLine r.1 r.2).progress
      = (r.1 - ((Arc.fresh si ei t0).run rs).startTime) / ((ARC_DURATION : ℚ) / 2) ∧
    0 ≤ (((Arc.fresh si ei t0).run rs).drawAnimatedLine r.1 r.2).progress ∧
    ((((Arc.fresh si ei t0).run rs).drawAnimatedLine r.1 r.2).hasReachedEnd
        = ((Arc.fresh si ei t0).run rs).hasReachedEnd →
      (((Arc.fresh si ei t0).run rs).drawAnimatedLine r.1 r.2).isDone = false →
      (((Arc.fresh si ei t0).run rs).drawAnimatedLine r.1 r.2).progress < 999 / 1000) := by
  have hpos := halfDuration_pos
  obtain ⟨-, -, t1, -, ht1, hst⟩ := clockOK_append t0 rs r hclk
  have hle : ((Arc.fresh si ei t0).run rs).startTime ≤ r.1 :=
    le_trans (hst (Arc.fresh si ei t0) (le_refl _)) ht1
  have hprog := Arc.drawAnimatedLine_progress ((Arc.fresh si ei t0).run rs) r.1 r.2
  refine ⟨rfl, hprog, ?_, ?_⟩
  · rw [hprog]
    exact div_nonneg (by linarith) hpos.le
  · intro hsame hnd
    rw [hprog]
    by_contra hp
    by_cases hr : ((Arc.fresh si ei t0).run rs).hasReachedEnd = true
    · rw [Arc.drawAnimatedLine_done _ r.1 r.2 hr hp] at hnd
      simp at hnd
    · have hr' : ((Arc.fresh si ei t0).run rs).hasReachedEnd = false := by simpa using hr
      rw [Arc.drawAnimatedLine_switch _ r.1 r.2 hr' hp, hr'] at hsame
      simp at hsame

/-- Witness of `Arc.progress_nonneg`: an arc created at `0`, advanced at `1000`
and then at `1500`. -/
theorem Arc.progress_nonneg_witness :
    0 ≤ (((Arc.fresh 0 0 0).run [(1000, 1000)]).drawAnimatedLine
      ((1500, 1500) : ℚ × ℚ).1 ((1500, 1500) : ℚ × ℚ).2).progress :=
  (Arc.progress_nonneg 0 0 0 [(1000, 1000)] (1500, 1500)
    (by norm_num [clockOK])).2.2.1

/-- Claim C8 as stated fails.  With non-decreasing clock readings, an arc
created at `0` and first advanced at `2010` stores `progress = 201/200 > 1`;
first advanced at `5000` it stores `progress = 5/2 > 1`. -/
theorem Arc.progress_exceeds_one :
    clockOK 0 [(2010, 2010)] ∧
    ((Arc.fresh 0 0 0).run [(2010, 2010)]).progress = 201 / 200 ∧
    ¬ ((Arc.fresh 0 0 0).run [(2010, 2010)]).progress ≤ 1 ∧
    clockOK 0 [(5000, 5000)] ∧
    ((Arc.fresh 0 0 0).run [(5000, 5000)]).progress = 5 / 2 ∧
    ¬ ((Arc.fresh 0 0 0).run [(5000, 5000)]).progress ≤ 1 := by
  norm_num [clockOK, Arc.run, Arc.drawAnimatedLine, Arc.fresh, ARC_DURATION, ARC_VERTICES]

end Globe

namespace Globe

/-! ## The loop of `updateArcs` -/

theorem updateArcsLoop_spec (clk : Nat → ℚ × ℚ) :
    ∀ (rest pre : List Arc) (k : Nat) (drawn removed : List Arc),
      updateArcsLoop clk (pre ++ rest) pre.length k drawn removed =
        { arcs := pre ++ (advanceAll clk k rest).filter (fun a => !a.isDone),
          drawn := drawn ++ rest,
          removed := removed ++ (advanceAll clk k rest).filter (fun a => a.isDone) } := by
  intro rest
  induction rest with
  | nil =>
    intro pre k drawn removed
    rw [updateArcsLoop]
    simp [advanceAll]
  | cons c rest ih =>
    intro pre k drawn removed
    rw [updateArcsLoop]
    have hlt : pre.length < (pre ++ c :: rest).length := by simp
    rw [dif_pos hlt]
    have hget : (pre ++ c :: rest)[pre.length] = c := by
      rw [List.getElem_append_right (le_refl _)]
      simp
    have hset : ∀ x : Arc, (pre ++ c :: rest).set pre.length x = pre ++ x :: rest := by
      intro x
      simp
    simp only [hget, hset]
    by_cases hd : (c.drawAnimatedLine (clk k).1 (clk k).2).isDone = true
    · have herase : (pre ++ c.drawAnimatedLine (clk k).1 (clk k).2 :: rest).eraseIdx pre.length
          = pre ++ rest := by
        rw [List.eraseIdx_append_of_length_le (le_refl _)]
        simp
      rw [if_pos hd, herase, ih pre (k + 1)]
      simp [advanceAll, hd]
    · have hstep : pre ++ c.drawAnimatedLine (clk k).1 (clk k).2 :: rest
          = (pre ++ [c.drawAnimatedLine (clk k).1 (clk k).2]) ++ rest := by simp
      have hlen : pre.length + 1 = (pre ++ [c.drawAnimatedLine (clk k).1 (clk k).2]).length := by
        simp
      rw [if_neg hd, hstep, hlen, ih (pre ++ [c.drawAnimatedLine (clk k).1 (clk k).2]) (k + 1)]
      simp [advanceAll, hd]

theorem advanceAll_length (clk : Nat → ℚ × ℚ) :
    ∀ (arcs : List Arc) (k : Nat), (advanceAll clk k arcs).length = arcs.length := by
  intro arcs
  induction arcs with
  | nil => intro k; rfl
  | cons a as ih => intro k; simp [advanceAll, ih]

/-- Claim C9.  For every arc list and all clock readings, `updateArcs` calls
`drawAnimatedLine` on each arc of the list exactly once, in list order (the
calls made are exactly the input list); afterwards the list consists of
exactly the advanced arcs whose `isDone` flag is false, in their original
relative order, and the arcs passed to `removeFromScene` are exactly the
advanced arcs whose `isDone` flag is true, each once. -/
theorem updateArcs_spec (clk : Nat → ℚ × ℚ) (arcs : List Arc) :
    (updateArcs clk arcs).drawn = arcs ∧
    (advanceAll clk 0 arcs).length = arcs.length ∧
    (updateArcs clk arcs).arcs
      = (advanceAll clk 0 arcs).filter (fun a => !a.isDone) ∧
    (updateArcs clk arcs).removed
      = (advanceAll clk 0 arcs).filter (fun a => a.isDone) ∧
    (∀ a ∈ (updateArcs clk arcs).removed, a.isDone = true) ∧
    (∀ a ∈ (updateArcs clk arcs).arcs, a.isDone = false) := by
  have h := updateArcsLoop_spec clk arcs [] 0 [] []
  simp only [List.nil_append, List.length_nil] at h
  unfold updateArcs
  rw [h]
  refine ⟨rfl, advanceAll_length clk arcs 0, rfl, rfl, ?_, ?_⟩
  · intro a ha
    simp only [List.mem_filter] at ha
    exact ha.2
  · intro a ha
    simp only [List.mem_filter] at ha
    simpa using ha.2

end Globe

namespace Globe

/-! ## The number of active arcs -/

theorem updateArcs_length_le (clk : Nat → ℚ × ℚ) (arcs : List Arc) :
    (updateArcs clk arcs).arcs.length ≤ arcs.length := by
  have h := updateArcsLoop_spec clk arcs [] 0 [] []
  simp only [List.nil_append, List.length_nil] at h
  unfold updateArcs
  rw [h]
  calc ((advanceAll clk 0 arcs).filter (fun a => !a.isDone)).length
      ≤ (advanceAll clk 0 arcs).length := List.length_filter_le _ _
    _ = arcs.length := advanceAll_length clk arcs 0

theorem generateArc_length_le (dots : List Dot) (arcs arcs1 : List Arc)
    (diceRoll r1 r2 now : ℚ) (hle : arcs.length ≤ MAX_ARCS)
    (h : generateArc dots arcs diceRoll r1 r2 now = Except.ok arcs1) :
    arcs1.length ≤ MAX_ARCS := by
  unfold generateArc at h
  split_ifs at h with h1 h2
  · split at h
    · injection h with h
      subst h
      simp only [List.length_append, List.length_singleton]
      omega
    · exact absurd h (by simp)
  · injection h with h
    subst h
    exact hle
  · injection h with h
    subst h
    exact hle

theorem frame_length_le (dots : List Dot) (arcs : List Arc) (f : FrameInput)
    (hle : arcs.length ≤ MAX_ARCS) : (frame dots arcs f).length ≤ MAX_ARCS := by
  unfold frame
  split
  · rename_i arcs1 h
    exact le_trans (updateArcs_length_le f.clk arcs1)
      (generateArc_length_le dots arcs arcs1 _ _ _ _ hle h)
  · exact hle

theorem runFrames_length_le (dots : List Dot) (fs : List FrameInput) :
    ∀ arcs : List Arc, arcs.length ≤ MAX_ARCS →
      (runFrames dots arcs fs).length ≤ MAX_ARCS := by
  induction fs with
  | nil => intro arcs h; exact h
  | cons f fs ih =>
    intro arcs h
    simp only [runFrames]
    exact ih _ (frame_length_le dots arcs f h)

/-- Claim C1.  Starting from an empty arc list, after any finite sequence of
frames (arbitrary dot collection, dice rolls, random draws and clock
readings), the number of active arcs is at most `MAX_ARCS = 5`; and in any
further frame it is at most `MAX_ARCS` after `generateArc` and again after
`updateArcs`, that is, after the whole frame. -/
theorem arcs_length_le_MAX_ARCS (dots : List Dot) (fs : List FrameInput)
    (f : FrameInput) :
    MAX_ARCS = 5 ∧
    (runFrames dots [] fs).length ≤ MAX_ARCS ∧
    (∀ arcs1 : List Arc,
      generateArc dots (runFrames dots [] fs) f.diceRoll f.r1 f.r2 f.now
          = Except.ok arcs1 →
        arcs1.length ≤ MAX_ARCS ∧ (updateArcs f.clk arcs1).arcs.length ≤ MAX_ARCS) ∧
    (frame dots (runFrames dots [] fs) f).length ≤ MAX_ARCS ∧
    (runFrames dots [] (fs ++ [f])).length ≤ MAX_ARCS := by
  have h0 : (runFrames dots [] fs).length ≤ MAX_ARCS :=
    runFrames_length_le dots fs [] (Nat.zero_le _)
  refine ⟨rfl, h0, ?_, frame_length_le dots _ f h0,
    runFrames_length_le dots (fs ++ [f]) [] (Nat.zero_le _)⟩
  intro arcs1 h
  have h1 := generateArc_length_le dots _ arcs1 _ _ _ _ h0 h
  exact ⟨h1, le_trans (updateArcs_length_le f.clk arcs1) h1⟩

/-! ## Arc endpoints over the reals -/

theorem vector3toLonLat_lat_range (p : Vector3) :
    0 ≤ (vector3toLonLat p).lat ∧ (vector3toLonLat p).lat ≤ Real.pi / 2 := by
  refine ⟨abs_nonneg _, ?_⟩
  show |Real.arcsin (p.z / (GLOBE_RADIUS : ℝ))| ≤ Real.pi / 2
  rw [abs_le]
  exact ⟨Real.neg_pi_div_two_le_arcsin _, Real.arcsin_le_pi_div_two _⟩

theorem vector3toLonLat_long_range (p : Vector3) :
    0 ≤ (vector3toLonLat p).long ∧ (vector3toLonLat p).long ≤ Real.pi :=
  ⟨abs_nonneg _, Complex.abs_arg_le_pi _⟩

/-- Claim C10.  Over the real numbers, for every dot position `(x, y, z)` with
`|z| ≤ GLOBE_RADIUS`, the latitude `|asin(z/R)|` lies in `[0, π/2]`, the
longitude `|atan2(y, z)|` lies in `[0, π]`, and the arc endpoint
`toXYZ(lat, long, GLOBE_RADIUS)` has `y ≥ 0` and `z ≥ 0`; so the endpoint
differs from the Dot's position whenever that position has a negative `y` or
`z` coordinate. -/
theorem arcEndpoint_nonneg (position : Vector3)
    (_hz : |position.z| ≤ (GLOBE_RADIUS : ℝ)) :
    (0 ≤ (vector3toLonLat position).lat ∧
      (vector3toLonLat position).lat ≤ Real.pi / 2) ∧
    (0 ≤ (vector3toLonLat position).long ∧
      (vector3toLonLat position).long ≤ Real.pi) ∧
    0 ≤ (arcEndpoint position).y ∧ 0 ≤ (arcEndpoint position).z ∧
    (position.y < 0 ∨ position.z < 0 → arcEndpoint position ≠ position) := by
  have hlat := vector3toLonLat_lat_range position
  have hlong := vector3toLonLat_long_range position
  have hR : (0 : ℝ) ≤ (GLOBE_RADIUS : ℝ) := Nat.cast_nonneg _
  have hcos : 0 ≤ Real.cos (vector3toLonLat position).lat :=
    Real.cos_nonneg_of_neg_pi_div_two_le_of_le (by linarith [hlat.1, Real.pi_pos]) hlat.2
  have hsinlat : 0 ≤ Real.sin (vector3toLonLat position).lat :=
    Real.sin_nonneg_of_nonneg_of_le_pi hlat.1 (by linarith [hlat.2, Real.pi_pos])
  have hsinlong : 0 ≤ Real.sin (vector3toLonLat position).long :=
    Real.sin_nonneg_of_nonneg_of_le_pi hlong.1 hlong.2
  have hy : 0 ≤ (arcEndpoint position).y :=
    mul_nonneg (mul_nonneg hR hcos) hsinlong
  have hzz : 0 ≤ (arcEndpoint position).z := mul_nonneg hR hsinlat
  refine ⟨hlat, hlong, hy, hzz, ?_⟩
  intro hneg heq
  rw [heq] at hy hzz
  rcases hneg with h | h <;> linarith

/-- Witness of `arcEndpoint_nonneg`: the position `(0, -600, 0)`. -/
theorem arcEndpoint_nonneg_witness :
    arcEndpoint ⟨0, -600, 0⟩ ≠ ⟨0, -600, 0⟩ :=
  (arcEndpoint_nonneg ⟨0, -600, 0⟩ (by norm_num [GLOBE_RADIUS])).2.2.2.2
    (Or.inl (by norm_num))

end Globe
